import Mathlib

/-!
Shallow embedding of `mlflow_export_import/model/export_model.py` and
`mlflow_export_import/copy/copy_run.py`.

External collaborators (the mlflow client, HTTP clients, the run
exporter/importer, the file writer) are modelled as an environment record of
fallible functions; Python exceptions are modelled by `Except PyError`.
Python dicts (insertion ordered) are modelled as association lists.
-/

namespace MlflowEI

/-- A `RestException` from the mlflow client: carries the structured json
payload, of which the code only inspects `error_code` (via
`e.json.get("error_code", None)`); the rest of the payload is opaque. -/
structure RestException where
  error_code : Option String
  payload : String
deriving DecidableEq, Repr

/-- A Python exception as seen by this code: a `RestException`, the
`MlflowExportImportException` raised for conflicting filters (carrying the
two filter lists that the formatted message interpolates, and the http
status code), or any other exception. -/
inductive PyError where
  | rest (e : RestException)
  | exportImport (stages : List String) (versions : List String) (http_status_code : Nat)
  | other (msg : String)
deriving DecidableEq, Repr

/-- The fields of an mlflow `ModelVersion` entity that the code reads. -/
structure ModelVersion where
  name : String
  version : String
  current_stage : String
  run_id : String
  creation_timestamp : Int
  last_updated_timestamp : Int
deriving DecidableEq, Repr

/-- A JSON-like Python value, as needed for the model-metadata dicts. -/
inductive Value where
  | null
  | str (s : String)
  | int (n : Int)
  | list (l : List Value)
  | dct (d : List (String × Value))

/-- A Python dict with string keys: an insertion-ordered association list. -/
abbrev Dct := List (String × Value)

/-- Python dict lookup `d.get(k, None)` / `d[k]`: first binding of the key. -/
def dget (m : Dct) (k : String) : Option Value :=
  (m.find? (fun p => p.1 == k)).map (fun p => p.2)

/-- Python dict assignment `d[k] = v`: replace the value in place if the key is present (insertion
order preserved), otherwise append the binding at the end. -/
def dset (m : Dct) (k : String) (v : Value) : Dct :=
  if m.any (fun p => p.1 == k) then
    m.map (fun p => if p.1 == k then (k, v) else p)
  else
    m ++ [(k, v)]

/-- Python dict removal `d.pop(k, None)`: drop the binding of the key. -/
def derase (m : Dct) (k : String) : Dct :=
  m.filter (fun p => p.1 != k)

/-- Python truthiness of a `Value` (`if tags:`). -/
def truthy : Value → Bool
  | .null => false
  | .str s => s ≠ ""
  | .int n => n ≠ 0
  | .list l => !l.isEmpty
  | .dct d => !d.isEmpty

/-- Python truthiness of a value that may be absent (`None` is falsy). -/
def truthyOpt : Option Value → Bool
  | some t => truthy t
  | Option.none => false

/-- The `stages` argument of `export_model`: `None`, a comma-joined string,
or an already-split sequence of strings. -/
inductive StagesInput where
  | none
  | str (s : String)
  | list (l : List String)

/-- Modelled from the spec: the canonical stage vocabulary, the keys of
`model_version_stages._CANONICAL_MAPPING` in the mlflow library (not part of
this repository), i.e. `ALL_STAGES` lower-cased. -/
def canonicalStages : List String := ["none", "staging", "production", "archived"]

/-- The function `_normalize_stages` (export_model.py:192-204). Returns the normalized
stage list together with the list of tokens that are only warned about
(logger warnings, returned here as data so they are observable). -/
def _normalize_stages : StagesInput → List String × List String
  | .none => ([], [])
  | .str s =>
    if s = "" then ([], [])
    else
      let stages := (s.split (fun c => c == ',')).map String.toLower
      (stages, stages.filter (fun st => !canonicalStages.contains st))
  | .list l =>
    let stages := l.map String.toLower
    (stages, stages.filter (fun st => !canonicalStages.contains st))

/-- The `Options` dataclass (export_model.py:34-42), fields in source order. -/
structure Options where
  stages : List String
  versions : List String
  export_latest_versions : Bool
  export_deleted_runs : Bool
  export_version_model : Bool
  export_permissions : Bool
  notebook_formats : Option (List String)

/-- The part of `run.info` the code reads after `get_run`. -/
structure RunInfo where
  artifact_uri : String
  experiment_id : String
deriving DecidableEq, Repr

/-- The environment of external collaborators of the model export:
each call may raise, modelled by `Except PyError`. -/
structure Env where
  export_run : String → String → Bool → Option (List String) → Except PyError Unit
  get_run : String → Except PyError RunInfo
  get_experiment_name : String → Except PyError String
  export_version_model : ModelVersion → String → Except PyError String
  list_model_versions : String → Bool → Except PyError (List ModelVersion)
  is_importing_into_databricks : Bool
  get_model_databricks : String → Except PyError Dct
  get_model : String → Except PyError Dct
  get_model_permissions : Value → Except PyError Value
  fmt_ts_millis : Option Value → Value

/-- A successfully exported version descriptor: `dict(vr)` plus the derived
fields `_run_artifact_uri`, `_experiment_name` and optionally `_download_uri`
(export_model.py:152-159). -/
structure VersionDescriptor where
  base : ModelVersion
  run_artifact_uri : String
  experiment_name : String
  download_uri : Option String
deriving DecidableEq, Repr

/-- The per-version failure record `err_msg` (export_model.py:162-171):
message classification, model name, version, run id, raw exception payload. -/
structure FailureRecord where
  message : String
  model : String
  version : String
  run_id : String
  rest_exception : RestException
deriving DecidableEq, Repr

/-- The body of the `try` block of `_export_version` (export_model.py:147-159):
export the run, re-fetch it, resolve the experiment name, optionally export
the cached version model, and assemble the descriptor. -/
def attemptVersion (env : Env) (output_dir : String) (opts : Options)
    (vr : ModelVersion) : Except PyError VersionDescriptor := do
  let opath := output_dir ++ "/" ++ vr.run_id
  let _ ← env.export_run vr.run_id opath opts.export_deleted_runs opts.notebook_formats
  let run ← env.get_run vr.run_id
  let exp_name ← env.get_experiment_name run.experiment_id
  let dl ← if opts.export_version_model then
      Except.map some (env.export_version_model vr output_dir)
    else pure Option.none
  pure ⟨vr, run.artifact_uri, exp_name, dl⟩

/-- The failure record built in the `except RestException` handler
(export_model.py:162-168): the message classifies by the structured error
code, the record carries name, version, run id and the raw payload. -/
def mkFailureRecord (vr : ModelVersion) (e : RestException) : FailureRecord :=
  ⟨if e.error_code = some "RESOURCE_DOES_NOT_EXIST" then
      "Version run probably does not exist"
    else
      "Version cannot be exported",
   vr.name, vr.version, vr.run_id, e⟩

/-- The function `_export_version` (export_model.py:142-171): on success append the
descriptor to `output_versions`; a `RestException` is caught and appended to
`failed_versions`; any other exception propagates. -/
def _export_version (env : Env) (output_dir : String) (opts : Options)
    (vr : ModelVersion) (output_versions : List VersionDescriptor)
    (failed_versions : List FailureRecord) :
    Except PyError (List VersionDescriptor × List FailureRecord) :=
  match attemptVersion env output_dir opts vr with
  | .ok d => .ok (output_versions ++ [d], failed_versions)
  | .error (.rest e) => .ok (output_versions, failed_versions ++ [mkFailureRecord vr e])
  | .error e => .error e

/-- The loop of `_export_versions` (export_model.py:132-137): the two
`continue` guards (stage filter, version filter), then `_export_version`
threading the two accumulator lists. -/
def exportVersionsLoop (env : Env) (output_dir : String) (opts : Options) :
    List ModelVersion → List VersionDescriptor → List FailureRecord →
    Except PyError (List VersionDescriptor × List FailureRecord)
  | [], out, fail => .ok (out, fail)
  | vr :: rest, out, fail =>
    if opts.stages.length != 0 && !(opts.stages.contains vr.current_stage.toLower) then
      exportVersionsLoop env output_dir opts rest out fail
    else if opts.versions.length != 0 && !(opts.versions.contains vr.version) then
      exportVersionsLoop env output_dir opts rest out fail
    else
      match _export_version env output_dir opts vr out fail with
      | .ok (out2, fail2) => exportVersionsLoop env output_dir opts rest out2 fail2
      | .error e => .error e

/-- The comparison used by the final sort of `_export_versions`
(export_model.py:138): the sort key `x["version"]` is the version identifier,
a string, so the order is lexicographic string order. -/
def versionLe (a b : VersionDescriptor) : Prop :=
  a.base.version ≤ b.base.version

instance : DecidableRel versionLe :=
  fun a b =>
    decidable_of_iff (a.base.version.toList ≤ b.base.version.toList)
      String.le_iff_toList_le.symm

instance : IsTotal VersionDescriptor versionLe :=
  ⟨fun a b => le_total a.base.version b.base.version⟩

instance : IsTrans VersionDescriptor versionLe :=
  ⟨fun _ _ _ hab hbc => le_trans hab hbc⟩

/-- The final sort of `_export_versions` (export_model.py:138):
`output_versions.sort(key=lambda x: x["version"], reverse=False)` — a stable
ascending sort by the string key, modelled by stable insertion sort (the Python list sort is also stable, and any two stable sorts by the same key agree). -/
def sortOutputVersions (l : List VersionDescriptor) : List VersionDescriptor :=
  l.insertionSort versionLe

/-- The function `_export_versions` (export_model.py:130-139). -/
def _export_versions (env : Env) (output_dir : String) (opts : Options)
    (versions : List ModelVersion) :
    Except PyError (List VersionDescriptor × List FailureRecord) :=
  match exportVersionsLoop env output_dir opts versions [] [] with
  | .ok (out, fail) => .ok (sortOutputVersions out, fail)
  | .error e => .error e

/-- The version-selection predicate implicit in the two `continue` guards of
`_export_versions`: a version is processed iff neither guard skips it. -/
def keepVersion (opts : Options) (vr : ModelVersion) : Bool :=
  !(opts.stages.length != 0 && !(opts.stages.contains vr.current_stage.toLower)) &&
  !(opts.versions.length != 0 && !(opts.versions.contains vr.version))

/-- The versions that the loop actually processes, in input order. -/
def selectedVersions (opts : Options) (versions : List ModelVersion) : List ModelVersion :=
  versions.filter (keepVersion opts)

/-- The function `_adjust_timestamp` (export_model.py:188-189):
`dct[f"_{attr}"] = fmt_ts_millis(dct.get(attr, None))`. -/
def _adjust_timestamp (fmt : Option Value → Value) (dct : Dct) (attr : String) : Dct :=
  dset dct ("_" ++ attr) (fmt (dget dct attr))

/-- The per-version timestamp adjustments of the loop in `_adjust_model`
(export_model.py:181-183). -/
def _adjust_version (fmt : Option Value → Value) (vr : Dct) : Dct :=
  _adjust_timestamp fmt (_adjust_timestamp fmt vr "creation_timestamp") "last_updated_timestamp"

/-- The function `_adjust_model` (export_model.py:174-185): adjust the two model
timestamps, pop `tags` and re-append it only when truthy, adjust each
timestamps of each version, attach `versions`, pop `latest_versions`. -/
def _adjust_model (fmt : Option Value → Value) (model : Dct) (versions : List Dct) : Dct :=
  let m1 := _adjust_timestamp fmt model "creation_timestamp"
  let m2 := _adjust_timestamp fmt m1 "last_updated_timestamp"
  let tags := dget m2 "tags"
  let m3 := derase m2 "tags"
  let m4 := if truthyOpt tags then dset m3 "tags" (tags.getD .null) else m3
  let m5 := dset m4 "versions"
    (Value.list (versions.map (fun v => Value.dct (_adjust_version fmt v))))
  derase m5 "latest_versions"

/-- The dump `dict(vr)` (export_model.py:153): the raw attribute
mapping, in entity field order. -/
def versionEntityDct (vr : ModelVersion) : Dct :=
  [("name", .str vr.name), ("version", .str vr.version),
   ("current_stage", .str vr.current_stage), ("run_id", .str vr.run_id),
   ("creation_timestamp", .int vr.creation_timestamp),
   ("last_updated_timestamp", .int vr.last_updated_timestamp)]

/-- The dict built by `_export_version` for a successful version: `dict(vr)`
plus the derived fields appended in source order (export_model.py:153-158). -/
def versionToDct (d : VersionDescriptor) : Dct :=
  versionEntityDct d.base
    ++ [("_run_artifact_uri", .str d.run_artifact_uri),
        ("_experiment_name", .str d.experiment_name)]
    ++ (match d.download_uri with
        | some u => [("_download_uri", Value.str u)]
        | Option.none => [])

/-- The `info_attr` summary dict (export_model.py:117-125), field for field. -/
structure InfoAttr where
  num_target_stages : Nat
  num_target_versions : Nat
  num_src_versions : Nat
  num_dst_versions : Nat
  failed_versions : List FailureRecord
  export_latest_versions : Bool
  export_permissions : Bool
deriving DecidableEq, Repr

/-- The model-metadata fetch and adjustment of `_export_model`
(export_model.py:107-115): the Databricks branch (permissions requested and
importing into Databricks) pops the `registered_model_databricks` wrapper,
adjusts it, attaches permissions; the plain branch adjusts the
`registered_model` sub-dict in place. A missing or non-dict sub-object makes
the Python code raise (`AttributeError`/`KeyError`), modelled as an
`other` error. -/
def fetchAdjustedModel (env : Env) (model_name : String) (opts : Options)
    (versionDcts : List Dct) : Except PyError Dct :=
  if env.is_importing_into_databricks && opts.export_permissions then do
    let model ← env.get_model_databricks model_name
    match dget model "registered_model_databricks" with
    | some (.dct model2) => do
      let model := derase model "registered_model_databricks"
      let model2 := _adjust_model env.fmt_ts_millis model2 versionDcts
      match dget model2 "id" with
      | some idv => do
        let perms ← env.get_model_permissions idv
        let model2 := dset model2 "permissions" perms
        pure (dset model "registered_model" (.dct model2))
      | Option.none => Except.error (.other "KeyError: id")
    | some _ => Except.error (.other "TypeError: registered_model_databricks")
    | Option.none => Except.error (.other "AttributeError: NoneType")
  else do
    let model ← env.get_model model_name
    match dget model "registered_model" with
    | some (.dct inner) =>
      pure (dset model "registered_model"
        (.dct (_adjust_model env.fmt_ts_millis inner versionDcts)))
    | some _ => Except.error (.other "TypeError: registered_model")
    | Option.none => Except.error (.other "KeyError: registered_model")

/-- The function `_export_model` (export_model.py:101-127). The external
`write_export_file` call is modelled by returning the written content: the
adjusted model dict together with the `info_attr` summary block. -/
def _export_model (env : Env) (model_name output_dir : String) (opts : Options) :
    Except PyError (Dct × InfoAttr) := do
  let ori_versions ← env.list_model_versions model_name opts.export_latest_versions
  let (versions, failed_versions) ← _export_versions env output_dir opts ori_versions
  let model ← fetchAdjustedModel env model_name opts (versions.map versionToDct)
  let info : InfoAttr :=
    ⟨opts.stages.length, opts.versions.length, versions.length, versions.length,
     failed_versions, opts.export_latest_versions, opts.export_permissions⟩
  pure (model, info)

/-- The function `export_model` (export_model.py:44-98): normalize the stage filter,
default the version filter, raise the fatal configuration error when both are
non-empty (before the `try` block), then run `_export_model` under a handler
that converts every exception into `(False, model_name)`. -/
def export_model (env : Env) (model_name output_dir : String)
    (stages : StagesInput) (versions : Option (List String))
    (export_latest_versions export_version_model export_permissions export_deleted_runs : Bool)
    (notebook_formats : Option (List String)) : Except PyError (Bool × String) :=
  let stagesN := (_normalize_stages stages).1
  let versionsN := match versions with
    | some l => l
    | Option.none => []
  if stagesN.length != 0 && versionsN.length != 0 then
    .error (.exportImport stagesN versionsN 400)
  else
    let opts : Options := ⟨stagesN, versionsN, export_latest_versions,
      export_deleted_runs, export_version_model, export_permissions, notebook_formats⟩
    match _export_model env model_name output_dir opts with
    | .ok _ => .ok (true, model_name)
    | .error _ => .ok (false, model_name)

/-- The destination run descriptor returned by `import_run`. -/
structure Run where
  run_id : String
  experiment_name : String
deriving DecidableEq, Repr

/-- Environment of `copy_run._copy`: the staging directory name allocated by
`tempfile.TemporaryDirectory()` and the two phase collaborators. -/
structure CopyEnv where
  staging_dir : String
  export_run : String → String → Except PyError Unit
  import_run : String → String → Except PyError Run

/-- Filesystem state observed by the copy operation: the set of existing
staging directories. -/
structure FsState where
  dirs : List String
deriving DecidableEq, Repr

/-- The function `_copy` (copy_run.py:24-37). Modelled from the spec for the
`tempfile.TemporaryDirectory` context manager (not part of this repository):
entering the `with` creates the staging directory, leaving it deletes the
directory unconditionally, whether the body returned or raised; the body
exports the source run into it then imports from it. -/
def _copy (env : CopyEnv) (src_run_id dst_experiment_name : String)
    (fs : FsState) : Except PyError Run × FsState :=
  let d := env.staging_dir
  let fs1 : FsState := ⟨d :: fs.dirs⟩
  let body : Except PyError Run := do
    let _ ← env.export_run src_run_id d
    env.import_run d dst_experiment_name
  (body, ⟨fs1.dirs.filter (fun x => x != d)⟩)

/-- Holds when an `Except` outcome is a success. -/
def isOkE : Except PyError α → Bool
  | .ok _ => true
  | .error _ => false

/-- Holds when an `Except` outcome is a `RestException` failure (caught per-version). -/
def isRestFailure : Except PyError α → Bool
  | .error (.rest _) => true
  | _ => false

/-- The failure record that `_export_version` appends for a version, when it
appends one. -/
def errPart (env : Env) (output_dir : String) (opts : Options)
    (vr : ModelVersion) : Option FailureRecord :=
  match attemptVersion env output_dir opts vr with
  | .error (.rest e) => some (mkFailureRecord vr e)
  | _ => Option.none

/-! ### Concrete fixture environments, for closed evaluations -/

/-- A trivial environment in which every collaborator call succeeds. -/
def envTriv : Env :=
  ⟨fun _ _ _ _ => .ok (), fun r => .ok ⟨"art/" ++ r, "e1"⟩, fun _ => .ok "exp1",
   fun _ _ => .ok "dl", fun _ _ => .ok [], false,
   fun _ => .ok [], fun _ => .ok [("registered_model", .dct [("name", .str "m")])],
   fun _ => .ok .null, fun _ => .null⟩

/-- The structured resource-not-found error. -/
def notFoundExc : RestException := ⟨some "RESOURCE_DOES_NOT_EXIST", "HTTP 404"⟩

/-- Like `envTriv`, but exporting the run `r2` raises a `RestException`
whose error code is `RESOURCE_DOES_NOT_EXIST`, and the model listing returns
two versions. -/
def envFail2 : Env :=
  ⟨fun rid _ _ _ => if rid == "r2" then .error (.rest notFoundExc) else .ok (),
   fun r => .ok ⟨"art/" ++ r, "e1"⟩, fun _ => .ok "exp1",
   fun _ _ => .ok "dl",
   fun _ _ => .ok [⟨"m2", "1", "Production", "r1", 0, 0⟩, ⟨"m2", "2", "None", "r2", 0, 0⟩],
   false,
   fun _ => .ok [], fun _ => .ok [("registered_model", .dct [("name", .str "m2")])],
   fun _ => .ok .null, fun _ => .null⟩

/-- Options with no filters and all flags off. -/
def optsEmpty : Options := ⟨[], [], false, false, false, false, Option.none⟩

instance {ε α : Type} [DecidableEq ε] [DecidableEq α] : DecidableEq (Except ε α)
  | .ok a, .ok b =>
    if h : a = b then isTrue (by rw [h])
    else isFalse (fun he => h (Except.ok.inj he))
  | .ok _, .error _ => isFalse (fun he => Except.noConfusion he)
  | .error _, .ok _ => isFalse (fun he => Except.noConfusion he)
  | .error e, .error f =>
    if h : e = f then isTrue (by rw [h])
    else isFalse (fun he => h (Except.error.inj he))

/-- The decimal value denoted by a version-identifier string (the version
number it spells, for identifiers made of digits). -/
def decimalValue (s : String) : Nat :=
  s.toList.foldl (fun n c => n * 10 + (c.toNat - 48)) 0

/-- A version with identifier 2 of a two-version model. -/
def v2C4 : ModelVersion := ⟨"m", "2", "Production", "r2", 0, 0⟩

/-- A version with identifier 10 of a two-version model. -/
def v10C4 : ModelVersion := ⟨"m", "10", "None", "r10", 0, 0⟩

/-- A trivial timestamp formatter standing in for `fmt_ts_millis`. -/
def fmtNull : Option Value → Value := fun _ => .null

/-- The adjusted model dict written by `_export_model` in the `envFail2`
scenario (one successful version, one failed). -/
def mC10 : Dct :=
  [("registered_model", Value.dct (_adjust_model (fun _ => Value.null)
    [("name", Value.str "m2")]
    [versionToDct ⟨⟨"m2", "1", "Production", "r1", 0, 0⟩, "art/r1", "exp1", Option.none⟩]))]

/-- The summary block written by `_export_model` in the `envFail2` scenario. -/
def infoC10 : InfoAttr :=
  ⟨0, 0, 1, 1, [mkFailureRecord ⟨"m2", "2", "None", "r2", 0, 0⟩ notFoundExc], false, false⟩

/-- A model-metadata dict whose `tags` field is present but empty (falsy). -/
def modelC8 : Dct :=
  [("name", .str "m"), ("creation_timestamp", .int 1),
   ("last_updated_timestamp", .int 2), ("tags", .list []),
   ("description", .str "d")]

/-- A model-metadata dict whose `tags` field is present and non-empty. -/
def modelC8T : Dct :=
  [("name", .str "m"), ("creation_timestamp", .int 1),
   ("tags", .list [.str "t1"]), ("last_updated_timestamp", .int 2),
   ("latest_versions", .list [.null]), ("description", .str "d")]

/-! ### Helper lemmas about the dict model -/

theorem dget_eq_none_iff (m : Dct) (k : String) :
    dget m k = Option.none ↔ ∀ p ∈ m, ¬ (p.1 == k) = true := by
  simp [dget]

theorem dset_fresh (m : Dct) (k : String) (v : Value) (h : dget m k = Option.none) :
    dset m k v = m ++ [(k, v)] := by
  unfold dset
  rw [if_neg]
  intro hx
  rw [List.any_eq_true] at hx
  obtain ⟨p, hp, hpk⟩ := hx
  rw [dget_eq_none_iff] at h
  exact h p hp hpk

theorem dget_append (m l : Dct) (k : String) :
    dget (m ++ l) k = (dget m k).or (dget l k) := by
  simp only [dget, List.find?_append]
  cases m.find? (fun p => p.1 == k) <;> simp

theorem dget_append_single_ne (m : Dct) (k k2 : String) (v : Value) (h : k ≠ k2) :
    dget (m ++ [(k2, v)]) k = dget m k := by
  rw [dget_append]
  have hne : ((k2, v).1 == k) = false := by
    simp only [beq_eq_false_iff_ne, ne_eq]
    exact fun he => h he.symm
  have h2 : dget [(k2, v)] k = Option.none := by
    simp [dget, List.find?_cons_of_neg, hne]
  rw [h2]
  cases dget m k <;> rfl

theorem derase_append (m l : Dct) (k : String) :
    derase (m ++ l) k = derase m k ++ derase l k := by
  simp [derase]

theorem dget_derase_self (m : Dct) (k : String) :
    dget (derase m k) k = Option.none := by
  rw [dget_eq_none_iff]
  intro p hp
  simp only [derase, List.mem_filter] at hp
  simp only [bne_iff_ne, ne_eq] at hp
  simp [hp.2]

theorem dget_cons_pos (p : String × Value) (m : Dct) (k : String)
    (h : (p.1 == k) = true) : dget (p :: m) k = some p.2 := by
  unfold dget
  rw [List.find?_cons_of_pos m h]
  rfl

theorem dget_cons_neg (p : String × Value) (m : Dct) (k : String)
    (h : (p.1 == k) = false) : dget (p :: m) k = dget m k := by
  unfold dget
  rw [List.find?_cons_of_neg m (by simp [h])]

theorem dget_derase_ne (m : Dct) (k k2 : String) (h : k ≠ k2) :
    dget (derase m k2) k = dget m k := by
  induction m with
  | nil => rfl
  | cons p m ih =>
    simp only [derase, List.filter_cons]
    by_cases h2 : (p.1 != k2) = true
    · rw [if_pos h2]
      by_cases h3 : (p.1 == k) = true
      · rw [dget_cons_pos p _ k h3, dget_cons_pos p m k h3]
      · have h3f : (p.1 == k) = false := by
          cases hb : (p.1 == k)
          · rfl
          · exact absurd hb h3
        rw [dget_cons_neg p _ k h3f, dget_cons_neg p m k h3f]
        exact ih
    · rw [if_neg h2]
      have hp : p.1 = k2 := by
        by_cases hb : p.1 = k2
        · exact hb
        · exact absurd (by simp [bne_iff_ne, hb]) h2
      have h3f : (p.1 == k) = false := by
        simp only [beq_eq_false_iff_ne, ne_eq, hp]
        exact fun he => h he.symm
      rw [dget_cons_neg p m k h3f]
      exact ih

theorem derase_single_ne (k k2 : String) (v : Value) (h : k2 ≠ k) :
    derase [(k2, v)] k = [(k2, v)] := by
  simp [derase, List.filter_cons, h]

/-! ### Helper lemmas about the version export loop -/

theorem attemptVersion_base (env : Env) (output_dir : String) (opts : Options)
    (vr : ModelVersion) (d : VersionDescriptor)
    (h : attemptVersion env output_dir opts vr = .ok d) : d.base = vr := by
  unfold attemptVersion at h
  simp only [bind, Except.bind, pure, Except.pure] at h
  cases h1 : env.export_run vr.run_id (output_dir ++ "/" ++ vr.run_id)
      opts.export_deleted_runs opts.notebook_formats with
  | error e => simp [h1] at h
  | ok u =>
  simp only [h1] at h
  cases h2 : env.get_run vr.run_id with
  | error e => simp [h2] at h
  | ok run =>
  simp only [h2] at h
  cases h3 : env.get_experiment_name run.experiment_id with
  | error e => simp [h3] at h
  | ok en =>
  simp only [h3] at h
  split at h
  · cases h4 : Except.map some (env.export_version_model vr output_dir) with
    | error e => simp [h4] at h
    | ok dl =>
      simp only [h4] at h
      cases h
      rfl
  · cases h
    rfl

theorem keepVersion_iff (opts : Options) (vr : ModelVersion) :
    keepVersion opts vr = true ↔
      ¬ (opts.stages.length != 0 && !(opts.stages.contains vr.current_stage.toLower)) = true ∧
      ¬ (opts.versions.length != 0 && !(opts.versions.contains vr.version)) = true := by
  unfold keepVersion
  cases h1 : (opts.stages.length != 0 && !(opts.stages.contains vr.current_stage.toLower)) <;>
    cases h2 : (opts.versions.length != 0 && !(opts.versions.contains vr.version)) <;> simp

/-- Characterization of the version export loop: given that no selected
version attempt raises a non-`RestException` error, the loop succeeds and
appends exactly the successful descriptors and the failure records of the
selected versions, in processing order. -/
theorem exportVersionsLoop_spec (env : Env) (output_dir : String) (opts : Options)
    (vrs : List ModelVersion) (out0 : List VersionDescriptor) (fail0 : List FailureRecord)
    (hno : ∀ vr ∈ vrs, keepVersion opts vr = true →
      (isOkE (attemptVersion env output_dir opts vr)
        || isRestFailure (attemptVersion env output_dir opts vr)) = true) :
    exportVersionsLoop env output_dir opts vrs out0 fail0 =
      .ok (out0 ++ (selectedVersions opts vrs).filterMap
            (fun vr => (attemptVersion env output_dir opts vr).toOption),
           fail0 ++ (selectedVersions opts vrs).filterMap (errPart env output_dir opts)) := by
  induction vrs generalizing out0 fail0 with
  | nil => simp [exportVersionsLoop, selectedVersions]
  | cons vr rest ih =>
    have hno_rest : ∀ v ∈ rest, keepVersion opts v = true →
        (isOkE (attemptVersion env output_dir opts v)
          || isRestFailure (attemptVersion env output_dir opts v)) = true :=
      fun v hv => hno v (List.mem_cons_of_mem vr hv)
    cases h1 : (opts.stages.length != 0 && !(opts.stages.contains vr.current_stage.toLower)) with
    | true =>
      have hk : keepVersion opts vr = false := by
        unfold keepVersion; rw [h1]; rfl
      have hstep : exportVersionsLoop env output_dir opts (vr :: rest) out0 fail0 =
          exportVersionsLoop env output_dir opts rest out0 fail0 := by
        simp only [exportVersionsLoop]
        rw [h1]
        simp
      have hsel : selectedVersions opts (vr :: rest) = selectedVersions opts rest := by
        simp [selectedVersions, List.filter_cons, hk]
      rw [hstep, hsel]
      exact ih out0 fail0 hno_rest
    | false =>
      cases h2 : (opts.versions.length != 0 && !(opts.versions.contains vr.version)) with
      | true =>
        have hk : keepVersion opts vr = false := by
          unfold keepVersion; rw [h1, h2]; rfl
        have hstep : exportVersionsLoop env output_dir opts (vr :: rest) out0 fail0 =
            exportVersionsLoop env output_dir opts rest out0 fail0 := by
          simp only [exportVersionsLoop]
          rw [h1, h2]
          simp
        have hsel : selectedVersions opts (vr :: rest) = selectedVersions opts rest := by
          simp [selectedVersions, List.filter_cons, hk]
        rw [hstep, hsel]
        exact ih out0 fail0 hno_rest
      | false =>
        have hk : keepVersion opts vr = true := by
          unfold keepVersion; rw [h1, h2]; rfl
        have hsel : selectedVersions opts (vr :: rest) = vr :: selectedVersions opts rest := by
          simp [selectedVersions, List.filter_cons, hk]
        have hor := hno vr (List.mem_cons_self vr rest) hk
        have hstep : exportVersionsLoop env output_dir opts (vr :: rest) out0 fail0 =
            match _export_version env output_dir opts vr out0 fail0 with
            | .ok (out2, fail2) => exportVersionsLoop env output_dir opts rest out2 fail2
            | .error e => .error e := by
          simp only [exportVersionsLoop]
          rw [h1, h2]
          simp
        rw [hstep, hsel]
        cases ha : attemptVersion env output_dir opts vr with
        | ok d =>
          simp only [_export_version, ha]
          rw [ih (out0 ++ [d]) fail0 hno_rest]
          simp only [List.filterMap_cons, ha, Except.toOption, errPart]
          simp [List.append_assoc]
        | error e =>
          cases e with
          | rest re =>
            simp only [_export_version, ha]
            rw [ih out0 (fail0 ++ [mkFailureRecord vr re]) hno_rest]
            simp only [List.filterMap_cons, ha, Except.toOption, errPart]
            simp [List.append_assoc]
          | exportImport a b c =>
            rw [ha] at hor
            simp [isOkE, isRestFailure] at hor
          | other msg =>
            rw [ha] at hor
            simp [isOkE, isRestFailure] at hor

/-- Characterization of `_export_versions` under the same hypothesis. -/
theorem export_versions_spec (env : Env) (output_dir : String) (opts : Options)
    (vrs : List ModelVersion)
    (hno : ∀ vr ∈ vrs, keepVersion opts vr = true →
      (isOkE (attemptVersion env output_dir opts vr)
        || isRestFailure (attemptVersion env output_dir opts vr)) = true) :
    _export_versions env output_dir opts vrs =
      .ok (sortOutputVersions ((selectedVersions opts vrs).filterMap
            (fun vr => (attemptVersion env output_dir opts vr).toOption)),
           (selectedVersions opts vrs).filterMap (errPart env output_dir opts)) := by
  unfold _export_versions
  rw [exportVersionsLoop_spec env output_dir opts vrs [] [] hno]
  simp

theorem length_filterMap_eq_length_filter (l : List α) (f : α → Option β) :
    (l.filterMap f).length = (l.filter (fun a => (f a).isSome)).length := by
  induction l with
  | nil => rfl
  | cons a l ih =>
    cases h : f a <;> simp [List.filterMap_cons, List.filter_cons, h, ih]

theorem length_filter_add_length_filter_not (l : List α) (p : α → Bool) :
    (l.filter p).length + (l.filter (fun a => !(p a))).length = l.length := by
  induction l with
  | nil => rfl
  | cons a l ih =>
    cases h : p a <;> simp [List.filter_cons, h] <;> omega

theorem filterMap_eq_self_of (l : List α) (f : α → Option α)
    (h : ∀ a ∈ l, f a = some a) : l.filterMap f = l := by
  induction l with
  | nil => rfl
  | cons a l ih =>
    rw [List.filterMap_cons, h a (List.mem_cons_self a l)]
    rw [ih (fun a ha => h a (List.mem_cons_of_mem _ ha))]

/-! ### Claim theorems -/

/-- Shared helper: when both normalized filters are non-empty, `export_model`
returns the fatal configuration error, independently of the environment. -/
theorem export_model_config_error (env : Env) (model_name output_dir : String)
    (stages : StagesInput) (versions : Option (List String))
    (latest vmodel perms deleted : Bool) (nbfmts : Option (List String))
    (h1 : (_normalize_stages stages).1 ≠ [])
    (h2 : versions.getD [] ≠ []) :
    export_model env model_name output_dir stages versions latest vmodel perms deleted nbfmts
      = .error (.exportImport (_normalize_stages stages).1 (versions.getD []) 400) := by
  have hs : ((_normalize_stages stages).1.length != 0) = true := by
    rw [bne_iff_ne]
    intro h0
    exact h1 (List.length_eq_zero.mp h0)
  cases versions with
  | none => exact absurd rfl h2
  | some lv =>
    have hvn : (lv.length != 0) = true := by
      rw [bne_iff_ne]
      intro h0
      exact h2 (by simpa using List.length_eq_zero.mp h0)
    simp only [export_model, Option.getD_some]
    rw [if_pos (by rw [Bool.and_eq_true]; exact ⟨hs, hvn⟩)]

/-- Shared helper: when the two filters are not both non-empty, `export_model`
is the guarded `_export_model` call with every error converted to `false`. -/
theorem export_model_guard_pass (env : Env) (model_name output_dir : String)
    (stages : StagesInput) (versions : Option (List String))
    (latest vmodel perms deleted : Bool) (nbfmts : Option (List String))
    (hcond : ((_normalize_stages stages).1.length != 0
        && (versions.getD []).length != 0) = false) :
    export_model env model_name output_dir stages versions latest vmodel perms deleted nbfmts
      = match _export_model env model_name output_dir
          ⟨(_normalize_stages stages).1, versions.getD [], latest, deleted, vmodel, perms, nbfmts⟩ with
        | .ok _ => .ok (true, model_name)
        | .error _ => .ok (false, model_name) := by
  cases versions with
  | none =>
    simp only [Option.getD_none] at hcond ⊢
    simp only [export_model]
    rw [if_neg (by simp [hcond])]
  | some lv =>
    simp only [Option.getD_some] at hcond ⊢
    simp only [export_model]
    rw [if_neg (by simp [hcond])]

/-- C2: for every stage filter and version filter that are both non-empty
after normalization, `export_model` returns the fatal configuration error —
a distinct error value, not a per-version failure record, and not a
`(success, name)` pair — and the outcome is the same for every environment,
so no version is listed or processed and no output is written before the
failure. -/
theorem c2_both_filters_fatal (env : Env) (model_name output_dir : String)
    (stages : StagesInput) (versions : Option (List String))
    (latest vmodel perms deleted : Bool) (nbfmts : Option (List String))
    (h1 : (_normalize_stages stages).1 ≠ [])
    (h2 : versions.getD [] ≠ []) :
    export_model env model_name output_dir stages versions latest vmodel perms deleted nbfmts
      = .error (.exportImport (_normalize_stages stages).1 (versions.getD []) 400) ∧
    (∀ p : Bool × String,
      export_model env model_name output_dir stages versions latest vmodel perms deleted nbfmts
        ≠ .ok p) ∧
    (∀ env2 : Env,
      export_model env2 model_name output_dir stages versions latest vmodel perms deleted nbfmts =
      export_model env model_name output_dir stages versions latest vmodel perms deleted nbfmts) := by
  have hmain : ∀ e : Env,
      export_model e model_name output_dir stages versions latest vmodel perms deleted nbfmts
        = .error (.exportImport (_normalize_stages stages).1 (versions.getD []) 400) :=
    fun e => export_model_config_error e model_name output_dir stages versions
      latest vmodel perms deleted nbfmts h1 h2
  refine ⟨hmain env, ?_, fun env2 => by rw [hmain env2, hmain env]⟩
  intro p hp
  rw [hmain env] at hp
  exact Except.noConfusion hp

/-- Witness for C2: concrete conflicting filters produce the fatal error. -/
theorem c2_both_filters_fatal_witness :
    export_model envTriv "m" "out" (.list ["production"]) (some ["1"])
      false false false false Option.none
      = .error (.exportImport (_normalize_stages (.list ["production"])).1
          ((some ["1"]).getD []) 400) :=
  (c2_both_filters_fatal envTriv "m" "out" (.list ["production"]) (some ["1"])
    false false false false Option.none (by simp [_normalize_stages]) (by simp)).1

/-- C1 counterexample: with a non-empty stage filter and a non-empty version
filter, `export_model` propagates the fatal configuration exception to its
caller instead of returning a `(success, name)` pair — so the claim that it
never propagates an exception for every input is false. -/
theorem c1_counterexample :
    (∃ err : PyError,
      export_model envTriv "m1" "out" (.list ["production"]) (some ["1"])
        false false false false Option.none = .error err) ∧
    ∀ p : Bool × String,
      export_model envTriv "m1" "out" (.list ["production"]) (some ["1"])
        false false false false Option.none ≠ .ok p := by
  have h := export_model_config_error envTriv "m1" "out" (.list ["production"]) (some ["1"])
    false false false false Option.none (by simp [_normalize_stages]) (by simp)
  refine ⟨⟨_, h⟩, fun p hp => ?_⟩
  rw [h] at hp
  exact Except.noConfusion hp

/-- C1 amended: unless both the normalized stage filter and the version
filter are non-empty (the fatal configuration error of C2, raised before the
guarded region), `export_model` never propagates an exception: it returns
`(b, model_name)`, and any error raised inside `_export_model` (fetching the
model or its versions, exporting) is converted into `(false, model_name)`. -/
theorem c1_no_exception_past_boundary (env : Env) (model_name output_dir : String)
    (stages : StagesInput) (versions : Option (List String))
    (latest vmodel perms deleted : Bool) (nbfmts : Option (List String))
    (h : (_normalize_stages stages).1 = [] ∨ versions.getD [] = []) :
    (∃ b : Bool,
      export_model env model_name output_dir stages versions latest vmodel perms deleted nbfmts
        = .ok (b, model_name)) ∧
    (∀ e : PyError,
      _export_model env model_name output_dir
        ⟨(_normalize_stages stages).1, versions.getD [], latest, deleted, vmodel, perms, nbfmts⟩
        = .error e →
      export_model env model_name output_dir stages versions latest vmodel perms deleted nbfmts
        = .ok (false, model_name)) := by
  have hcond : ((_normalize_stages stages).1.length != 0
      && (versions.getD []).length != 0) = false := by
    cases h with
    | inl h0 => simp [h0]
    | inr h0 => simp [h0]
  have hpass := export_model_guard_pass env model_name output_dir stages versions
    latest vmodel perms deleted nbfmts hcond
  cases hm : _export_model env model_name output_dir
      ⟨(_normalize_stages stages).1, versions.getD [], latest, deleted, vmodel, perms, nbfmts⟩ with
  | ok v =>
    rw [hm] at hpass
    constructor
    · exact ⟨true, hpass⟩
    · intro e he
      exact Except.noConfusion he
  | error e =>
    rw [hm] at hpass
    exact ⟨⟨false, hpass⟩, fun e2 _ => hpass⟩

/-- Witness for C1 (amended): with only a stage filter set, the call returns
a boolean-success pair. -/
theorem c1_no_exception_past_boundary_witness :
    ∃ b : Bool, export_model envTriv "m1" "out" (.list ["production"]) Option.none
      false false false false Option.none = .ok (b, "m1") :=
  (c1_no_exception_past_boundary envTriv "m1" "out" (.list ["production"]) Option.none
    false false false false Option.none (Or.inr rfl)).1

/-- C6: the staging directory acquired by the run-copy operation does not
exist after the call returns: the resulting filesystem state is the original
one minus the staging directory, and this holds whatever the two phase
collaborators return — success of both phases or an exception from either —
because the state component of the result does not depend on the outcome
of the body. -/
theorem c6_staging_dir_released (env : CopyEnv) (src dst : String) (fs : FsState) :
    ((_copy env src dst fs).2).dirs
      = fs.dirs.filter (fun x => x != env.staging_dir) ∧
    env.staging_dir ∉ ((_copy env src dst fs).2).dirs := by
  constructor
  · simp [_copy, List.filter_cons]
  · intro hmem
    simp [_copy, List.filter_cons, List.mem_filter] at hmem

/-- C7: the stage normalizer maps `None` and the empty string to the empty
collection, lower-cases every token (splitting a comma-joined string first),
and the warned tokens — exactly those outside the canonical vocabulary — are
still included in the output; the function is total, so it raises nothing. -/
theorem c7_normalize_stages (s : String) (l : List String) (hs : s ≠ "") :
    _normalize_stages .none = ([], []) ∧
    _normalize_stages (.str "") = ([], []) ∧
    (_normalize_stages (.str s)).1 = (s.split (fun c => c == ',')).map String.toLower ∧
    (_normalize_stages (.list l)).1 = l.map String.toLower ∧
    (_normalize_stages (.str s)).2 =
      ((_normalize_stages (.str s)).1).filter (fun st => !canonicalStages.contains st) ∧
    (_normalize_stages (.list l)).2 =
      ((_normalize_stages (.list l)).1).filter (fun st => !canonicalStages.contains st) ∧
    (∀ inp : StagesInput, ∀ st ∈ (_normalize_stages inp).2, st ∈ (_normalize_stages inp).1) := by
  refine ⟨rfl, rfl, ?_, rfl, ?_, rfl, ?_⟩
  · simp [_normalize_stages, hs]
  · simp [_normalize_stages, hs]
  · intro inp st hst
    cases inp with
    | none => simp [_normalize_stages] at hst
    | str s2 =>
      by_cases h2 : s2 = ""
      · subst h2
        simp [_normalize_stages] at hst
      · simp only [_normalize_stages, if_neg h2] at hst ⊢
        exact (List.mem_filter.mp hst).1
    | list l2 =>
      simp only [_normalize_stages] at hst ⊢
      exact (List.mem_filter.mp hst).1

/-- C4 counterexample: a model with versions 2 and 10 (both exported
successfully, no filters): the returned success list has version 10 first
and version 2 second — ascending lexicographically as strings, but not
ascending by version number, since 10 > 2. -/
theorem c4_counterexample :
    _export_versions envTriv "out" optsEmpty [v2C4, v10C4] =
      .ok ([⟨v10C4, "art/r10", "exp1", Option.none⟩,
            ⟨v2C4, "art/r2", "exp1", Option.none⟩], []) ∧
    ([(⟨v10C4, "art/r10", "exp1", Option.none⟩ : VersionDescriptor),
      ⟨v2C4, "art/r2", "exp1", Option.none⟩].map
        (fun d => decimalValue d.base.version)) = [10, 2] ∧
    ¬ (10 ≤ 2) := by
  refine ⟨by decide, by decide, by decide⟩

/-- C4 amended: the success list returned by `_export_versions` is sorted
ascending by the version identifier as a string, in lexicographic order
(which coincides with numeric order only for identifiers of equal length). -/
theorem c4_success_list_sorted_lexicographically (env : Env) (output_dir : String)
    (opts : Options) (vrs : List ModelVersion)
    (out : List VersionDescriptor) (fail : List FailureRecord)
    (h : _export_versions env output_dir opts vrs = .ok (out, fail)) :
    List.Pairwise versionLe out := by
  unfold _export_versions at h
  cases hl : exportVersionsLoop env output_dir opts vrs [] [] with
  | error e =>
    rw [hl] at h
    exact Except.noConfusion h
  | ok p =>
    rw [hl] at h
    obtain ⟨out0, fail0⟩ := p
    have h2 : (Except.ok (sortOutputVersions out0, fail0) :
        Except PyError (List VersionDescriptor × List FailureRecord)) = .ok (out, fail) := h
    have h3 : sortOutputVersions out0 = out := congrArg Prod.fst (Except.ok.inj h2)
    rw [← h3]
    exact List.sorted_insertionSort versionLe out0

/-- Witness for C4 (amended): the concrete success list of the
counterexample run is lexicographically sorted. -/
theorem c4_success_list_sorted_lexicographically_witness :
    List.Pairwise versionLe
      [(⟨v10C4, "art/r10", "exp1", Option.none⟩ : VersionDescriptor),
       ⟨v2C4, "art/r2", "exp1", Option.none⟩] :=
  c4_success_list_sorted_lexicographically envTriv "out" optsEmpty [v2C4, v10C4]
    [⟨v10C4, "art/r10", "exp1", Option.none⟩, ⟨v2C4, "art/r2", "exp1", Option.none⟩]
    [] (by decide)

/-- Witness for C7: a concrete comma-joined input is split and lower-cased. -/
theorem c7_normalize_stages_witness :
    (_normalize_stages (.str "Production,None")).1
      = ("Production,None".split (fun c => c == ',')).map String.toLower :=
  (c7_normalize_stages "Production,None" [] (by decide)).2.2.1

/-- C8 counterexample: on a model whose `tags` field is present but empty
(falsy), `_adjust_model` does not move the `tags` field to the end of the
mapping — it removes it entirely (`pop` followed by the truthiness-guarded
re-insertion `if tags:`). -/
theorem c8_counterexample :
    dget modelC8 "tags" = some (Value.list []) ∧
    dget (_adjust_model fmtNull modelC8 []) "tags" = Option.none := by
  exact ⟨rfl, rfl⟩

/-- C8 amended: `_adjust_model` keeps all other model fields unchanged and in
order (minus `tags` and `latest_versions`), appends the human-readable
`_creation_timestamp` and `_last_updated_timestamp` fields alongside the raw
millisecond timestamps, re-appends the `tags` field after them only when its
value is truthy (a present-but-empty `tags` is dropped), attaches the
adjusted version list under the `versions` key at the end, and removes any
`latest_versions` field; each version dict likewise gets the two
human-readable timestamp fields appended. -/
theorem c8_adjust_model_characterization (fmt : Option Value → Value) (m : Dct)
    (vs : List Dct)
    (h1 : dget m "_creation_timestamp" = Option.none)
    (h2 : dget m "_last_updated_timestamp" = Option.none)
    (h3 : dget m "versions" = Option.none) :
    _adjust_model fmt m vs =
      derase (derase m "tags") "latest_versions"
        ++ [("_creation_timestamp", fmt (dget m "creation_timestamp")),
            ("_last_updated_timestamp", fmt (dget m "last_updated_timestamp"))]
        ++ (if truthyOpt (dget m "tags") then [("tags", (dget m "tags").getD .null)] else [])
        ++ [("versions", Value.list (vs.map (fun v => Value.dct (_adjust_version fmt v))))] ∧
    (∀ d : Dct, dget d "_creation_timestamp" = Option.none →
      dget d "_last_updated_timestamp" = Option.none →
      _adjust_version fmt d =
        d ++ [("_creation_timestamp", fmt (dget d "creation_timestamp")),
              ("_last_updated_timestamp", fmt (dget d "last_updated_timestamp"))]) := by
  have hlit1 : ("_" ++ "creation_timestamp" : String) = "_creation_timestamp" := rfl
  have hlit2 : ("_" ++ "last_updated_timestamp" : String) = "_last_updated_timestamp" := rfl
  constructor
  · simp only [_adjust_model, _adjust_timestamp, hlit1, hlit2]
    rw [dset_fresh m _ _ h1]
    rw [dget_append_single_ne m "last_updated_timestamp" "_creation_timestamp" _
      (by decide)]
    have e2 : dget (m ++ [("_creation_timestamp", fmt (dget m "creation_timestamp"))])
        "_last_updated_timestamp" = Option.none := by
      rw [dget_append_single_ne m "_last_updated_timestamp" "_creation_timestamp" _ (by decide)]
      exact h2
    rw [dset_fresh _ _ _ e2]
    have htags : dget ((m ++ [("_creation_timestamp", fmt (dget m "creation_timestamp"))])
          ++ [("_last_updated_timestamp", fmt (dget m "last_updated_timestamp"))]) "tags"
        = dget m "tags" := by
      rw [dget_append_single_ne _ "tags" "_last_updated_timestamp" _ (by decide)]
      rw [dget_append_single_ne m "tags" "_creation_timestamp" _ (by decide)]
    rw [htags]
    have hder : derase ((m ++ [("_creation_timestamp", fmt (dget m "creation_timestamp"))])
          ++ [("_last_updated_timestamp", fmt (dget m "last_updated_timestamp"))]) "tags"
        = (derase m "tags" ++ [("_creation_timestamp", fmt (dget m "creation_timestamp"))])
          ++ [("_last_updated_timestamp", fmt (dget m "last_updated_timestamp"))] := by
      rw [derase_append, derase_append]
      rw [derase_single_ne "tags" "_creation_timestamp" _ (by decide)]
      rw [derase_single_ne "tags" "_last_updated_timestamp" _ (by decide)]
    rw [hder]
    have hM3v : dget ((derase m "tags" ++ [("_creation_timestamp", fmt (dget m "creation_timestamp"))])
          ++ [("_last_updated_timestamp", fmt (dget m "last_updated_timestamp"))]) "versions"
        = Option.none := by
      rw [dget_append_single_ne _ "versions" "_last_updated_timestamp" _ (by decide)]
      rw [dget_append_single_ne _ "versions" "_creation_timestamp" _ (by decide)]
      rw [dget_derase_ne m "versions" "tags" (by decide)]
      exact h3
    by_cases htr : truthyOpt (dget m "tags") = true
    case neg =>
      rw [if_neg htr, if_neg htr]
      rw [dset_fresh _ _ _ hM3v]
      rw [derase_append, derase_append, derase_append]
      rw [derase_single_ne "latest_versions" "_creation_timestamp" _ (by decide)]
      rw [derase_single_ne "latest_versions" "_last_updated_timestamp" _ (by decide)]
      rw [derase_single_ne "latest_versions" "versions" _ (by decide)]
      simp [List.append_assoc]
    case pos =>
      rw [if_pos htr, if_pos htr]
      have hM3t : dget ((derase m "tags" ++ [("_creation_timestamp", fmt (dget m "creation_timestamp"))])
            ++ [("_last_updated_timestamp", fmt (dget m "last_updated_timestamp"))]) "tags"
          = Option.none := by
        rw [dget_append_single_ne _ "tags" "_last_updated_timestamp" _ (by decide)]
        rw [dget_append_single_ne _ "tags" "_creation_timestamp" _ (by decide)]
        exact dget_derase_self m "tags"
      rw [dset_fresh _ _ _ hM3t]
      have hM4v : dget (((derase m "tags" ++ [("_creation_timestamp", fmt (dget m "creation_timestamp"))])
            ++ [("_last_updated_timestamp", fmt (dget m "last_updated_timestamp"))])
            ++ [("tags", (dget m "tags").getD .null)]) "versions" = Option.none := by
        rw [dget_append_single_ne _ "versions" "tags" _ (by decide)]
        exact hM3v
      rw [dset_fresh _ _ _ hM4v]
      rw [derase_append, derase_append, derase_append, derase_append]
      rw [derase_single_ne "latest_versions" "_creation_timestamp" _ (by decide)]
      rw [derase_single_ne "latest_versions" "_last_updated_timestamp" _ (by decide)]
      rw [derase_single_ne "latest_versions" "tags" _ (by decide)]
      rw [derase_single_ne "latest_versions" "versions" _ (by decide)]
      simp [List.append_assoc]
  · intro d hd1 hd2
    simp only [_adjust_version, _adjust_timestamp, hlit1, hlit2]
    rw [dset_fresh d _ _ hd1]
    rw [dget_append_single_ne d "last_updated_timestamp" "_creation_timestamp" _ (by decide)]
    have e2 : dget (d ++ [("_creation_timestamp", fmt (dget d "creation_timestamp"))])
        "_last_updated_timestamp" = Option.none := by
      rw [dget_append_single_ne d "_last_updated_timestamp" "_creation_timestamp" _ (by decide)]
      exact hd2
    rw [dset_fresh _ _ _ e2]
    simp [List.append_assoc]

/-- Witness for C8 (amended): a concrete model with a non-empty `tags` field
has its fields reassembled as characterized. -/
theorem c8_adjust_model_characterization_witness :
    _adjust_model fmtNull modelC8T [] =
      [("name", .str "m"), ("creation_timestamp", .int 1),
       ("last_updated_timestamp", .int 2), ("description", .str "d"),
       ("_creation_timestamp", .null), ("_last_updated_timestamp", .null),
       ("tags", .list [.str "t1"]), ("versions", .list [])] := by
  have h := c8_adjust_model_characterization fmtNull modelC8T [] rfl rfl rfl
  rw [h.1]
  rfl

/-- C5: version selection. With both filters empty every version is selected
in input order; with a non-empty stage filter (version filter empty, the only
reachable combination) exactly the versions whose lower-cased stage is in the
filter are selected; with a non-empty version filter (stage filter empty)
exactly the versions whose identifier is in the filter are selected; and the
selected versions are exactly the ones the export loop processes: when every
selected version attempt succeeds, the unsorted success list of the loop is the
selected versions, in input order. -/
theorem c5_version_selection (env : Env) (output_dir : String) (opts : Options)
    (vrs : List ModelVersion)
    (hok : ∀ vr ∈ vrs, keepVersion opts vr = true →
      isOkE (attemptVersion env output_dir opts vr) = true) :
    (opts.stages = [] → opts.versions = [] → selectedVersions opts vrs = vrs) ∧
    (opts.stages ≠ [] → opts.versions = [] → selectedVersions opts vrs
      = vrs.filter (fun vr => opts.stages.contains vr.current_stage.toLower)) ∧
    (opts.versions ≠ [] → opts.stages = [] → selectedVersions opts vrs
      = vrs.filter (fun vr => opts.versions.contains vr.version)) ∧
    (∃ out, exportVersionsLoop env output_dir opts vrs [] [] = .ok (out, []) ∧
      out.map VersionDescriptor.base = selectedVersions opts vrs) := by
  have hno : ∀ vr ∈ vrs, keepVersion opts vr = true →
      (isOkE (attemptVersion env output_dir opts vr)
        || isRestFailure (attemptVersion env output_dir opts vr)) = true := by
    intro vr hv hk
    rw [hok vr hv hk]
    rfl
  refine ⟨?_, ?_, ?_, ?_⟩
  · intro hs hv
    simp [selectedVersions, keepVersion, hs, hv]
  · intro hs hv
    apply List.filter_congr
    intro vr _
    have hlen : (opts.stages.length != 0) = true := by
      rw [bne_iff_ne]
      intro h0
      exact hs (List.length_eq_zero.mp h0)
    simp [keepVersion, hlen, hv]
  · intro hv hs
    apply List.filter_congr
    intro vr _
    have hlen : (opts.versions.length != 0) = true := by
      rw [bne_iff_ne]
      intro h0
      exact hv (List.length_eq_zero.mp h0)
    simp [keepVersion, hlen, hs]
  · have hloop := exportVersionsLoop_spec env output_dir opts vrs [] [] hno
    have hfail : (selectedVersions opts vrs).filterMap (errPart env output_dir opts) = [] := by
      rw [List.filterMap_eq_nil_iff]
      intro vr hv
      have hm := List.mem_filter.mp hv
      have hko := hok vr hm.1 hm.2
      unfold errPart
      cases ha : attemptVersion env output_dir opts vr with
      | ok d => rfl
      | error e =>
        rw [ha] at hko
        simp [isOkE] at hko
    refine ⟨(selectedVersions opts vrs).filterMap
      (fun vr => (attemptVersion env output_dir opts vr).toOption), ?_, ?_⟩
    · rw [hloop, hfail]
      simp
    · rw [List.map_filterMap]
      apply filterMap_eq_self_of
      intro vr hv
      have hm := List.mem_filter.mp hv
      have hko := hok vr hm.1 hm.2
      cases ha : attemptVersion env output_dir opts vr with
      | ok d =>
        have hb := attemptVersion_base env output_dir opts vr d ha
        simp [Except.toOption, hb]
      | error e =>
        rw [ha] at hko
        simp [isOkE] at hko

/-- Witness for C5: a concrete version list with empty filters. -/
theorem c5_version_selection_witness :
    selectedVersions optsEmpty [v2C4, v10C4] = [v2C4, v10C4] :=
  ((c5_version_selection envTriv "out" optsEmpty [v2C4, v10C4] (by decide)).1) rfl rfl

/-- C3: per-version failure isolation. If no selected version raises a
non-structured (non-`RestException`) error, the batch completes: the success
list has exactly the selected versions whose attempt succeeded (so N selected
with K failures give N−K successes and K failures), and every failure record
carries the model name, version, run id and raw error payload of a selected
version whose attempt raised, with the message classifying resource-not-found
versus other by the structured error code. -/
theorem c3_per_version_failure_isolation (env : Env) (output_dir : String)
    (opts : Options) (vrs : List ModelVersion)
    (hno : ∀ vr ∈ vrs, keepVersion opts vr = true →
      (isOkE (attemptVersion env output_dir opts vr)
        || isRestFailure (attemptVersion env output_dir opts vr)) = true) :
    ∃ out fail,
      _export_versions env output_dir opts vrs = .ok (out, fail) ∧
      out.length = ((selectedVersions opts vrs).filter
        (fun vr => isOkE (attemptVersion env output_dir opts vr))).length ∧
      fail.length = ((selectedVersions opts vrs).filter
        (fun vr => !(isOkE (attemptVersion env output_dir opts vr)))).length ∧
      out.length + fail.length = (selectedVersions opts vrs).length ∧
      (∀ fr ∈ fail, ∃ vr e, vr ∈ selectedVersions opts vrs ∧
        attemptVersion env output_dir opts vr = .error (.rest e) ∧
        fr.model = vr.name ∧ fr.version = vr.version ∧ fr.run_id = vr.run_id ∧
        fr.rest_exception = e ∧
        fr.message = (if e.error_code = some "RESOURCE_DOES_NOT_EXIST" then
          "Version run probably does not exist" else "Version cannot be exported")) := by
  have hspec := export_versions_spec env output_dir opts vrs hno
  refine ⟨_, _, hspec, ?_, ?_, ?_, ?_⟩
  · unfold sortOutputVersions
    rw [List.length_insertionSort]
    rw [length_filterMap_eq_length_filter]
    apply congrArg List.length
    apply List.filter_congr
    intro vr _
    cases attemptVersion env output_dir opts vr <;> rfl
  · rw [length_filterMap_eq_length_filter]
    apply congrArg List.length
    apply List.filter_congr
    intro vr hv
    have hko := hno vr (List.mem_filter.mp hv).1 (List.mem_filter.mp hv).2
    unfold errPart
    cases ha : attemptVersion env output_dir opts vr with
    | ok d => rfl
    | error e =>
      rw [ha] at hko
      cases e with
      | rest re => rfl
      | exportImport a b c => simp [isOkE, isRestFailure] at hko
      | other msg => simp [isOkE, isRestFailure] at hko
  · unfold sortOutputVersions
    rw [List.length_insertionSort, length_filterMap_eq_length_filter,
      length_filterMap_eq_length_filter]
    rw [show ((selectedVersions opts vrs).filter
        (fun vr => ((attemptVersion env output_dir opts vr).toOption).isSome)).length
        = ((selectedVersions opts vrs).filter
          (fun vr => isOkE (attemptVersion env output_dir opts vr))).length from by
      apply congrArg List.length
      apply List.filter_congr
      intro vr _
      cases attemptVersion env output_dir opts vr <;> rfl]
    rw [show ((selectedVersions opts vrs).filter
        (fun vr => (errPart env output_dir opts vr).isSome)).length
        = ((selectedVersions opts vrs).filter
          (fun vr => !(isOkE (attemptVersion env output_dir opts vr)))).length from by
      apply congrArg List.length
      apply List.filter_congr
      intro vr hv
      have hko := hno vr (List.mem_filter.mp hv).1 (List.mem_filter.mp hv).2
      unfold errPart
      cases ha : attemptVersion env output_dir opts vr with
      | ok d => rfl
      | error e =>
        rw [ha] at hko
        cases e with
        | rest re => rfl
        | exportImport a b c => simp [isOkE, isRestFailure] at hko
        | other msg => simp [isOkE, isRestFailure] at hko]
    exact length_filter_add_length_filter_not (selectedVersions opts vrs) _
  · intro fr hfr
    obtain ⟨vr, hv, he⟩ := List.mem_filterMap.mp hfr
    refine ⟨vr, ?_⟩
    unfold errPart at he
    cases ha : attemptVersion env output_dir opts vr with
    | ok d =>
      rw [ha] at he
      exact absurd he (by simp)
    | error e =>
      cases e with
      | rest re =>
        rw [ha] at he
        refine ⟨re, hv, rfl, ?_⟩
        have hfr2 : fr = mkFailureRecord vr re := (Option.some.inj he).symm
        subst hfr2
        exact ⟨rfl, rfl, rfl, rfl, rfl⟩
      | exportImport a b c =>
        rw [ha] at he
        exact absurd he (by simp)
      | other msg =>
        rw [ha] at he
        exact absurd he (by simp)

/-- Witness for C3: a two-version model where the run of the second version is
gone: one success, one resource-not-found failure record. -/
theorem c3_per_version_failure_isolation_witness :
    ∃ out fail,
      _export_versions envFail2 "out" optsEmpty
        [⟨"m2", "1", "Production", "r1", 0, 0⟩, ⟨"m2", "2", "None", "r2", 0, 0⟩]
        = .ok (out, fail) ∧
      out.length = ((selectedVersions optsEmpty
        [⟨"m2", "1", "Production", "r1", 0, 0⟩, ⟨"m2", "2", "None", "r2", 0, 0⟩]).filter
        (fun vr => isOkE (attemptVersion envFail2 "out" optsEmpty vr))).length ∧
      fail.length = ((selectedVersions optsEmpty
        [⟨"m2", "1", "Production", "r1", 0, 0⟩, ⟨"m2", "2", "None", "r2", 0, 0⟩]).filter
        (fun vr => !(isOkE (attemptVersion envFail2 "out" optsEmpty vr)))).length ∧
      out.length + fail.length = (selectedVersions optsEmpty
        [⟨"m2", "1", "Production", "r1", 0, 0⟩, ⟨"m2", "2", "None", "r2", 0, 0⟩]).length ∧
      (∀ fr ∈ fail, ∃ vr e, vr ∈ selectedVersions optsEmpty
          [⟨"m2", "1", "Production", "r1", 0, 0⟩, ⟨"m2", "2", "None", "r2", 0, 0⟩] ∧
        attemptVersion envFail2 "out" optsEmpty vr = .error (.rest e) ∧
        fr.model = vr.name ∧ fr.version = vr.version ∧ fr.run_id = vr.run_id ∧
        fr.rest_exception = e ∧
        fr.message = (if e.error_code = some "RESOURCE_DOES_NOT_EXIST" then
          "Version run probably does not exist" else "Version cannot be exported")) :=
  c3_per_version_failure_isolation envFail2 "out" optsEmpty
    [⟨"m2", "1", "Production", "r1", 0, 0⟩, ⟨"m2", "2", "None", "r2", 0, 0⟩] (by decide)

/-- C9: a version excluded by the filters appears (by its version
identifier) in neither the success list nor the failure list, and every
selected version appears in exactly one of the two (membership in the success
list holds iff absence from the failure list), assuming no selected version
raises a non-structured error and version identifiers are unique. -/
theorem c9_filtered_versions_in_neither_list (env : Env) (output_dir : String)
    (opts : Options) (vrs : List ModelVersion)
    (hno : ∀ vr ∈ vrs, keepVersion opts vr = true →
      (isOkE (attemptVersion env output_dir opts vr)
        || isRestFailure (attemptVersion env output_dir opts vr)) = true)
    (hnd : (vrs.map ModelVersion.version).Nodup) :
    ∃ out fail, _export_versions env output_dir opts vrs = .ok (out, fail) ∧
      ∀ vr ∈ vrs,
        (keepVersion opts vr = false →
          vr.version ∉ out.map (fun d => d.base.version) ∧
          vr.version ∉ fail.map FailureRecord.version) ∧
        (keepVersion opts vr = true →
          ((vr.version ∈ out.map (fun d => d.base.version)) ↔
            vr.version ∉ fail.map FailureRecord.version)) := by
  have hspec := export_versions_spec env output_dir opts vrs hno
  have hinj := List.inj_on_of_nodup_map hnd
  have hout : ∀ v : String,
      v ∈ (sortOutputVersions ((selectedVersions opts vrs).filterMap
          (fun vr => (attemptVersion env output_dir opts vr).toOption))).map
          (fun d => d.base.version)
        ↔ ∃ vr2, vr2 ∈ selectedVersions opts vrs ∧
            isOkE (attemptVersion env output_dir opts vr2) = true ∧ vr2.version = v := by
    intro v
    constructor
    · intro hv
      obtain ⟨d, hd, hdv⟩ := List.mem_map.mp hv
      unfold sortOutputVersions at hd
      rw [List.mem_insertionSort] at hd
      obtain ⟨vr2, hvr2, hto⟩ := List.mem_filterMap.mp hd
      cases ha : attemptVersion env output_dir opts vr2 with
      | ok d2 =>
        rw [ha] at hto
        have hd2 : d2 = d := Option.some.inj hto
        subst hd2
        refine ⟨vr2, hvr2, by rw [ha]; rfl, ?_⟩
        rw [← attemptVersion_base env output_dir opts vr2 d2 ha]
        exact hdv
      | error e =>
        rw [ha] at hto
        exact absurd hto (by simp [Except.toOption])
    · rintro ⟨vr2, hvr2, hok2, hv2⟩
      cases ha : attemptVersion env output_dir opts vr2 with
      | error e =>
        rw [ha] at hok2
        simp [isOkE] at hok2
      | ok d =>
        apply List.mem_map.mpr
        refine ⟨d, ?_, ?_⟩
        · unfold sortOutputVersions
          rw [List.mem_insertionSort]
          exact List.mem_filterMap.mpr ⟨vr2, hvr2, by rw [ha]; rfl⟩
        · rw [attemptVersion_base env output_dir opts vr2 d ha]
          exact hv2
  have hfail : ∀ v : String,
      v ∈ ((selectedVersions opts vrs).filterMap (errPart env output_dir opts)).map
          FailureRecord.version
        ↔ ∃ vr2, vr2 ∈ selectedVersions opts vrs ∧
            isRestFailure (attemptVersion env output_dir opts vr2) = true ∧ vr2.version = v := by
    intro v
    constructor
    · intro hv
      obtain ⟨fr, hfr, hfrv⟩ := List.mem_map.mp hv
      obtain ⟨vr2, hvr2, he⟩ := List.mem_filterMap.mp hfr
      unfold errPart at he
      cases ha : attemptVersion env output_dir opts vr2 with
      | ok d =>
        rw [ha] at he
        exact absurd he (by simp)
      | error e =>
        cases e with
        | rest re =>
          rw [ha] at he
          have hfr2 : mkFailureRecord vr2 re = fr := Option.some.inj he
          refine ⟨vr2, hvr2, by rw [ha]; rfl, ?_⟩
          rw [← hfrv, ← hfr2]
          rfl
        | exportImport a b c =>
          rw [ha] at he
          exact absurd he (by simp)
        | other msg =>
          rw [ha] at he
          exact absurd he (by simp)
    · rintro ⟨vr2, hvr2, hrf, hv2⟩
      cases ha : attemptVersion env output_dir opts vr2 with
      | ok d =>
        rw [ha] at hrf
        simp [isRestFailure] at hrf
      | error e =>
        cases e with
        | rest re =>
          apply List.mem_map.mpr
          refine ⟨mkFailureRecord vr2 re, ?_, hv2⟩
          apply List.mem_filterMap.mpr
          refine ⟨vr2, hvr2, ?_⟩
          unfold errPart
          rw [ha]
        | exportImport a b c =>
          rw [ha] at hrf
          simp [isRestFailure] at hrf
        | other msg =>
          rw [ha] at hrf
          simp [isRestFailure] at hrf
  refine ⟨_, _, hspec, ?_⟩
  intro vr hvr
  constructor
  · intro hk
    constructor
    · intro hmem
      obtain ⟨vr2, hvr2, _, hveq⟩ := (hout vr.version).mp hmem
      have hm2 := List.mem_filter.mp hvr2
      have heq : vr2 = vr := hinj hm2.1 hvr hveq
      rw [heq] at hm2
      rw [hm2.2] at hk
      exact Bool.noConfusion hk
    · intro hmem
      obtain ⟨vr2, hvr2, _, hveq⟩ := (hfail vr.version).mp hmem
      have hm2 := List.mem_filter.mp hvr2
      have heq : vr2 = vr := hinj hm2.1 hvr hveq
      rw [heq] at hm2
      rw [hm2.2] at hk
      exact Bool.noConfusion hk
  · intro hk
    have hor := hno vr hvr hk
    have hvsel : vr ∈ selectedVersions opts vrs := List.mem_filter.mpr ⟨hvr, hk⟩
    cases ha : attemptVersion env output_dir opts vr with
    | ok d =>
      constructor
      · intro _
        intro hmem
        obtain ⟨vr2, hvr2, hrf, hveq⟩ := (hfail vr.version).mp hmem
        have heq : vr2 = vr := hinj (List.mem_filter.mp hvr2).1 hvr hveq
        rw [heq, ha] at hrf
        simp [isRestFailure] at hrf
      · intro _
        exact (hout vr.version).mpr ⟨vr, hvsel, by rw [ha]; rfl, rfl⟩
    | error e =>
      cases e with
      | rest re =>
        have hinfail : vr.version ∈ ((selectedVersions opts vrs).filterMap
            (errPart env output_dir opts)).map FailureRecord.version :=
          (hfail vr.version).mpr ⟨vr, hvsel, by rw [ha]; rfl, rfl⟩
        constructor
        · intro hmem
          obtain ⟨vr2, hvr2, hok2, hveq⟩ := (hout vr.version).mp hmem
          have heq : vr2 = vr := hinj (List.mem_filter.mp hvr2).1 hvr hveq
          rw [heq, ha] at hok2
          simp [isOkE] at hok2
        · intro hnin
          exact absurd hinfail hnin
      | exportImport a b c =>
        rw [ha] at hor
        simp [isOkE, isRestFailure] at hor
      | other msg =>
        rw [ha] at hor
        simp [isOkE, isRestFailure] at hor

/-- Witness for C9: the `envFail2` two-version scenario — every version is
selected and lands in exactly one of the two lists. -/
theorem c9_filtered_versions_in_neither_list_witness :
    ∃ out fail, _export_versions envFail2 "out" optsEmpty
        [⟨"m2", "1", "Production", "r1", 0, 0⟩, ⟨"m2", "2", "None", "r2", 0, 0⟩]
        = .ok (out, fail) ∧
      ∀ vr ∈ [(⟨"m2", "1", "Production", "r1", 0, 0⟩ : ModelVersion),
              ⟨"m2", "2", "None", "r2", 0, 0⟩],
        (keepVersion optsEmpty vr = false →
          vr.version ∉ out.map (fun d => d.base.version) ∧
          vr.version ∉ fail.map FailureRecord.version) ∧
        (keepVersion optsEmpty vr = true →
          ((vr.version ∈ out.map (fun d => d.base.version)) ↔
            vr.version ∉ fail.map FailureRecord.version)) :=
  c9_filtered_versions_in_neither_list envFail2 "out" optsEmpty
    [⟨"m2", "1", "Production", "r1", 0, 0⟩, ⟨"m2", "2", "None", "r2", 0, 0⟩]
    (by decide) (by decide)

/-- C10: whenever `_export_model` writes its descriptor and summary block,
`num_src_versions` and `num_dst_versions` are equal, and both equal the
length of the success list returned by the version export driver — not the
number of versions listed in the registry nor the number selected — and the
recorded failed versions are exactly the failure list of the driver. -/
theorem c10_summary_counts (env : Env) (model_name output_dir : String)
    (opts : Options) (vrs : List ModelVersion) (m : Dct) (info : InfoAttr)
    (h1 : env.list_model_versions model_name opts.export_latest_versions = .ok vrs)
    (h2 : _export_model env model_name output_dir opts = .ok (m, info)) :
    info.num_src_versions = info.num_dst_versions ∧
    ∃ out fail, _export_versions env output_dir opts vrs = .ok (out, fail) ∧
      info.num_src_versions = out.length ∧ info.num_dst_versions = out.length ∧
      info.failed_versions = fail := by
  unfold _export_model at h2
  simp only [bind, Except.bind, pure, Except.pure] at h2
  simp only [h1] at h2
  cases h3 : _export_versions env output_dir opts vrs with
  | error e =>
    simp only [h3] at h2
    exact absurd h2 (by simp)
  | ok p =>
    obtain ⟨out, fail⟩ := p
    simp only [h3] at h2
    cases h4 : fetchAdjustedModel env model_name opts (out.map versionToDct) with
    | error e =>
      simp only [h4] at h2
      exact absurd h2 (by simp)
    | ok mdl =>
      simp only [h4] at h2
      injection h2 with h5
      injection h5 with hma hinfo
      subst hinfo
      exact ⟨rfl, out, fail, rfl, rfl, rfl, rfl⟩

/-- Witness for C10: in the `envFail2` scenario (two versions found, one
failed) the summary counts are both 1 — the success count. -/
theorem c10_summary_counts_witness :
    infoC10.num_src_versions = infoC10.num_dst_versions :=
  (c10_summary_counts envFail2 "m2" "out" optsEmpty
    [⟨"m2", "1", "Production", "r1", 0, 0⟩, ⟨"m2", "2", "None", "r2", 0, 0⟩]
    mC10 infoC10 (by rfl) (by rfl)).1

end MlflowEI
